import Mathlib

/-!
# Verification of the resumyx heuristic ATS scoring engine

Shallow embedding of `src/backend/app/services/enhanced_ats_scorer.py`
(`EnhancedATSScorer`).  Python strings are modelled as `List Char`
(ASCII-level: `str.lower` and the `\w` word class are modelled by their
ASCII behaviour, which is exact on ASCII inputs).  Python `int`s are
modelled as `Nat`/`Int`; all scores are non-negative, so Python's `int()`
truncation of a non-negative quotient is mathematical floor, i.e. `Nat`
division.  Division-by-zero never occurs in the embedded code paths (each
division is guarded exactly as in the source).

Where the source computes with IEEE doubles, the embedding uses exact
integer arithmetic; each such definition carries a comment stating how the
exact model relates to the double-precision path (an exhaustive
machine check over the reachable input grid, or an insensitivity remark
for the claims proved).
-/

namespace Resumyx

/-! ## Character classes of the tokenizer regex

The scorer extracts tokens with `re.findall(r'\b[a-zA-Z][a-zA-Z0-9+ # . / -]*\b',
text.lower())`.  `\b` is a word/non-word boundary, where a word character is
`[a-zA-Z0-9_]` (ASCII model of Python's `\w`). -/

/-- A regex word character (`\w`, ASCII): letter, digit or underscore. -/
def isWordChar (c : Char) : Bool := c.isAlpha || c.isDigit || c == '_'

/-- A character of the token body class `[a-zA-Z0-9+ # . / -]`. -/
def isTokenChar (c : Char) : Bool :=
  c.isAlpha || c.isDigit || c == '+' || c == '#' || c == '.' || c == '/' || c == '-'

/-- `\b` holds between a last-consumed character `l` and the following
character (`none` at end of input): exactly one side is a word character. -/
def boundaryOK (l : Char) (r? : Option Char) : Bool :=
  match r? with
  | none => isWordChar l
  | some r => isWordChar l != isWordChar r

/-- Given the greedy run of token-class characters `run` and the remaining
input `after`, the regex engine backtracks from the longest prefix of `run`
to the longest prefix (length `k ≥ 1`) whose end position satisfies `\b`.
Mirrors the backtracking of the trailing `\b` in the findall regex. -/
def bestK (run after : List Char) : Option Nat :=
  (((List.range run.length).reverse).map (fun i => i + 1)).find?
    (fun k =>
      match run[k-1]? with
      | none => false
      | some l => boundaryOK l (run[k]? <|> after.head?))

/-- One `re.findall` scan: `prev` is the character before the current
position (`none` at the start of the string).  At each position, a match
attempt starts iff the current character is `[a-zA-Z]` and `\b` holds
before it; on success the scan resumes after the match, otherwise it
advances one character.  `fuel` bounds the number of scan steps; every
step consumes at least one character, so `fuel = s.length` is enough. -/
def findTokensAux : Nat → Option Char → List Char → List (List Char)
  | 0, _, _ => []
  | _ + 1, _, [] => []
  | fuel + 1, prev, c :: rest =>
    if c.isAlpha &&
        (match prev with
         | none => true
         | some p => !isWordChar p) then
      match bestK (c :: rest.takeWhile isTokenChar) (rest.dropWhile isTokenChar) with
      | some k =>
        (c :: rest.takeWhile isTokenChar).take k ::
          findTokensAux fuel (c :: rest.takeWhile isTokenChar)[k-1]?
            ((c :: rest.takeWhile isTokenChar).drop k ++ rest.dropWhile isTokenChar)
      | none => findTokensAux fuel (some c) rest
    else
      findTokensAux fuel (some c) rest

/-- All matches of `\b[a-zA-Z][a-zA-Z0-9+ # . / -]*\b` in `s`,
left to right, non-overlapping (the `re.findall` of the source). -/
def findTokens (s : List Char) : List (List Char) := findTokensAux s.length none s

/-- Python `str.lower` (ASCII model). -/
def lowerStr (s : List Char) : List Char := s.map Char.toLower

/-- The fixed `stop_words` set of `extract_keywords` (source lines 16-19). -/
def stopWords : List (List Char) :=
  [("the").toList, ("a").toList, ("an").toList, ("and").toList, ("or").toList,
   ("but").toList, ("in").toList, ("on").toList, ("at").toList, ("to").toList,
   ("for").toList, ("of").toList, ("with").toList, ("by").toList, ("from").toList,
   ("as").toList, ("is").toList, ("was").toList, ("are").toList, ("were").toList,
   ("been").toList, ("be").toList, ("have").toList, ("has").toList, ("had").toList,
   ("do").toList, ("does").toList, ("did").toList, ("will").toList, ("would").toList,
   ("could").toList, ("should").toList, ("may").toList, ("might").toList,
   ("must").toList, ("can").toList, ("this").toList, ("that").toList]

/-- `EnhancedATSScorer.extract_keywords`: tokenize the lowercased text and
drop stop words and tokens of length ≤ 2 (source lines 10-20). -/
def extract_keywords (text : List Char) : List (List Char) :=
  (findTokens (lowerStr text)).filter
    (fun w => !(stopWords.contains w) && decide (2 < w.length))

/-! ## Data model

`Modelled from the spec:` the module `app.models.resume` (pydantic models
`ResumeData`, `ATSScoreBreakdown`, and their sub-objects) is not under
`src/`; the structures below follow spec §3, restricted to the fields the
scoring core reads.  `education` and `projects` entries are only tested
for presence, so their fields are placeholders named after spec §3. -/

/-- Modelled from the spec: personal contact fields of the resume
(spec §3); absence is the empty string, matching Python falsiness. -/
structure PersonalInfo where
  email : List Char
  phone : List Char
  linkedin : List Char
deriving DecidableEq

/-- Modelled from the spec: the four named skill lists (spec §3). -/
structure SkillsData where
  languages : List (List Char)
  databases : List (List Char)
  cloud : List (List Char)
  tools : List (List Char)
deriving DecidableEq

/-- Modelled from the spec: one experience entry (spec §3); the scorer
reads only `description`. -/
structure ExperienceEntry where
  company : List Char
  role : List Char
  location : List Char
  startDate : List Char
  endDate : List Char
  description : List (List Char)
deriving DecidableEq

/-- Modelled from the spec: an education entry, tested only for presence. -/
structure EducationEntry where
  institution : List Char
deriving DecidableEq

/-- Modelled from the spec: a project entry, tested only for presence. -/
structure ProjectEntry where
  title : List Char
deriving DecidableEq

/-- Modelled from the spec: the resume document (spec §3). -/
structure ResumeData where
  personalInfo : PersonalInfo
  additionalInfo : List Char
  skills : SkillsData
  experience : List ExperienceEntry
  education : List EducationEntry
  projects : List ProjectEntry
deriving DecidableEq

/-- Modelled from the spec: the four sub-scores (spec §3 ScoreBreakdown). -/
structure ATSScoreBreakdown where
  keyword_match : Nat
  formatting : Nat
  experience_relevance : Nat
  skills_alignment : Nat
deriving DecidableEq

/-- The dict returned by `calculate_comprehensive_score`
(spec §3 ScoreReport). -/
structure ScoreReport where
  score : Nat
  breakdown : ATSScoreBreakdown
  missing_keywords : List (List Char)
  strengths : List (List Char)
  improvements : List (List Char)
  feedback : List Char
deriving DecidableEq

/-! ## Keyword matcher -/

/-- Python `" ".join`: concatenation with single-space separators. -/
def joinSp : List (List Char) → List Char
  | [] => []
  | [x] => x
  | x :: y :: ys => x ++ ' ' :: joinSp (y :: ys)

/-- First-occurrence deduplication: the iteration order of the keys of
`collections.Counter(l)` (insertion ordered), and the element list of
Python `set(l)` where only membership and size are consumed. -/
def dedupFirstAux : List (List Char) → List (List Char) → List (List Char)
  | _, [] => []
  | seen, x :: xs =>
    if x ∈ seen then dedupFirstAux seen xs
    else x :: dedupFirstAux (x :: seen) xs

/-- See `dedupFirstAux`. -/
def dedupFirst (l : List (List Char)) : List (List Char) := dedupFirstAux [] l

/-- Insert `x` before the first element that does not strictly precede it:
`lt y x` means `y` must stay strictly before `x`.  Because the sort below
inserts earlier elements into the already-sorted list of later ones,
walking past only strictly-preceding elements makes the sort stable — an
element never moves past one it ties with, so tied elements keep their
original relative order. -/
def insertLt (lt : List Char → List Char → Bool) (x : List Char) :
    List (List Char) → List (List Char)
  | [] => [x]
  | y :: ys => if lt y x then y :: insertLt lt x ys else x :: y :: ys

/-- Stable insertion sort: sort the tail, then insert the head in front
of everything it ties with.  With `lt a b := count b < count a` this is a
descending sort by count whose ties keep first-occurrence order — the
documented behaviour of `Counter.most_common` (`heapq.nlargest`, i.e.
`sorted(items, key=count, reverse=True)`, a stable descending sort). -/
def stableSortLt (lt : List Char → List Char → Bool) :
    List (List Char) → List (List Char)
  | [] => []
  | x :: xs => insertLt lt x (stableSortLt lt xs)

/-- The `important_keywords` of `calculate_keyword_match` (source lines
26-28): the 30 most frequent distinct job-description keywords, ties in
first-occurrence order (`Counter.most_common(30)`). -/
def important_keywords (jd : List Char) : List (List Char) :=
  let ks := extract_keywords jd
  (stableSortLt (fun a b => decide (ks.count b < ks.count a)) (dedupFirst ks)).take 30

/-- The part of the keyword-match haystack after `additionalInfo`: the
`" ".join` of the four skill lists and the flattened experience bullets
(source lines 33-37); it does not depend on `additionalInfo`. -/
def resume_rest (r : ResumeData) : List Char :=
  joinSp r.skills.languages ++ ' ' ::
    (joinSp r.skills.databases ++ ' ' ::
      (joinSp r.skills.cloud ++ ' ' ::
        (joinSp r.skills.tools ++ ' ' ::
          joinSp (r.experience.map (fun e => joinSp e.description)))))

/-- The haystack of `calculate_keyword_match` (source lines 31-38): the
`" ".join` of additionalInfo, the four skill lists and the flattened
experience bullets, lowercased. -/
def resume_text (r : ResumeData) : List Char :=
  lowerStr (r.additionalInfo ++ ' ' :: resume_rest r)

/-- `EnhancedATSScorer.calculate_keyword_match` (source lines 22-47).
The source computes `int((matched / len(important_keywords)) * 100)` in
IEEE doubles; `len(important_keywords) ≤ 30` always (`most_common(30)`),
and for every `0 ≤ matched ≤ len ≤ 30` the double computation equals
`matched * 100 / len` rounded down (exhaustively machine-checked), so
`Nat` division is an exact model of this line. -/
def calculate_keyword_match (r : ResumeData) (jd : List Char) :
    Nat × List (List Char) :=
  let important := important_keywords jd
  let hay := resume_text r
  let matched := important.countP (fun kw => decide (kw <:+: hay))
  let mp := if important.isEmpty then 0 else matched * 100 / important.length
  let missing := (important.take 15).filter (fun kw => !(decide (kw <:+: hay)))
  (mp, missing.take 10)

/-! ## Section scorers -/

/-- The running `score` of `score_formatting` just before the final
`max(0, min(100, score))` clamp (source lines 52-70). -/
def score_formatting_raw (r : ResumeData) : Int :=
  let s0 : Int := 100
  let s1 := if r.personalInfo.email = [] then s0 - 15 else s0
  let s2 := if r.personalInfo.phone = [] then s1 - 10 else s1
  let s3 := if r.experience = [] then s2 - 30 else s2
  let s4 := if r.skills.languages = [] ∧ r.skills.tools = [] then s3 - 20 else s3
  let s5 := if r.education = [] then s4 - 15 else s4
  let s6 := if r.personalInfo.linkedin ≠ [] then s5 + 5 else s5
  if r.projects ≠ [] then s6 + 5 else s6

/-- `EnhancedATSScorer.score_formatting` (source lines 49-72). -/
def score_formatting (r : ResumeData) : Nat :=
  (max 0 (min 100 (score_formatting_raw r))).toNat

/-- `EnhancedATSScorer.score_experience_relevance` (source lines 74-93).
With `j = max(len(job_keywords), 1)` and `n` experience entries, the
source accumulates `min(100, (overlap_i / j) * 100)` in IEEE doubles and
returns `int(total / n)`.  In exact arithmetic that value is
`⌊(Σ_i min(100·j, 100·overlap_i)) / (j·n)⌋`, which is the `Nat` division
below; the double-precision path can differ only where an accumulated
rounding error crosses an integer boundary, and no claim proved here is
sensitive to that sub-ulp deviation. -/
def score_experience_relevance (r : ResumeData) (jd : List Char) : Nat :=
  if r.experience = [] then 0
  else
    let jks := dedupFirst (extract_keywords jd)
    let j := max jks.length 1
    let total := (r.experience.map (fun e =>
        let eks := dedupFirst (extract_keywords (lowerStr (joinSp e.description)))
        let overlap := jks.countP (fun k => eks.contains k)
        min (100 * j) (100 * overlap))).sum
    total / (j * r.experience.length)

/-- The `all_skills` concatenation of `score_skills_alignment`
(source lines 98-103). -/
def allSkills (r : ResumeData) : List (List Char) :=
  r.skills.languages ++ r.skills.databases ++ r.skills.cloud ++ r.skills.tools

/-- `EnhancedATSScorer.score_skills_alignment` (source lines 95-112).
The source computes `int((matched_skills / len(all_skills)) * 100)` in
IEEE doubles; the exact value of that expression is `matched * 100 / n`
rounded down.  The double path can differ by one at isolated ratio
boundaries (e.g. 29 matched of 50 skills truncates to 57 in doubles,
58 exactly); every claim proved about this scorer uses only its range,
its empty-input case and its determinism, none of which are sensitive
to that deviation, so the exact `Nat` division is used. -/
def score_skills_alignment (r : ResumeData) (jd : List Char) : Nat :=
  if allSkills r = [] then 0
  else
    let jdLower := lowerStr jd
    let matched := (allSkills r).countP (fun sk => decide (lowerStr sk <:+: jdLower))
    min 100 (matched * 100 / (allSkills r).length)

/-! ## Aggregator -/

/-- Strength message for `keyword_match >= 70` (source line 120). -/
def strengthKeyword : List Char := "Strong keyword optimization".toList

/-- Strength message for `formatting >= 85` (source line 122). -/
def strengthFormatting : List Char := "Well-structured and complete resume".toList

/-- Strength message for `experience_relevance >= 70` (source line 124). -/
def strengthExperience : List Char := "Highly relevant work experience".toList

/-- Strength message for `skills_alignment >= 70` (source line 126). -/
def strengthSkills : List Char := "Skills strongly aligned with job requirements".toList

/-- Strength message for quantified achievements (source line 134). -/
def strengthNumbers : List Char := "Good use of quantified achievements".toList

/-- `EnhancedATSScorer.identify_strengths` (source lines 114-136): one
fixed statement per threshold crossed, in order, plus a statement when any
experience bullet contains a digit. -/
def identify_strengths (r : ResumeData) (b : ATSScoreBreakdown) : List (List Char) :=
  let has_numbers := r.experience.any
    (fun e => e.description.any (fun bullet => bullet.any Char.isDigit))
  ((if 70 ≤ b.keyword_match then [strengthKeyword] else []) ++
   (if 85 ≤ b.formatting then [strengthFormatting] else []) ++
   (if 70 ≤ b.experience_relevance then [strengthExperience] else []) ++
   (if 70 ≤ b.skills_alignment then [strengthSkills] else [])) ++
  (if has_numbers then [strengthNumbers] else [])

/-- Python `", ".join`. -/
def joinCommaSp : List (List Char) → List Char
  | [] => []
  | [x] => x
  | x :: y :: ys => x ++ ',' :: ' ' :: joinCommaSp (y :: ys)

/-- The keyword improvement string of `generate_improvements`
(source line 144): the first 5 missing keywords joined by `", "`. -/
def improveKeyword (missing : List (List Char)) : List Char :=
  "Add key terms: ".toList ++ joinCommaSp (missing.take 5)

/-- Improvement message for `formatting < 70` (source line 146). -/
def improveFormatting : List Char :=
  "Ensure all contact information is complete".toList

/-- Improvement message for `experience_relevance < 60` (source line 148). -/
def improveExperience : List Char :=
  "Rewrite experience bullets to emphasize relevant skills".toList

/-- Improvement message for `skills_alignment < 60` (source line 150). -/
def improveSkills : List Char :=
  "Add more job-relevant skills to your skills section".toList

/-- Default message when no improvement triggered (source line 153). -/
def improveDefault : List Char :=
  "Resume is well-optimized. Consider minor keyword enhancements.".toList

/-- `EnhancedATSScorer.generate_improvements` (source lines 138-155). -/
def generate_improvements (b : ATSScoreBreakdown) (missing : List (List Char)) :
    List (List Char) :=
  let l :=
    (if b.keyword_match < 60 then [improveKeyword missing] else []) ++
    (if b.formatting < 70 then [improveFormatting] else []) ++
    (if b.experience_relevance < 60 then [improveExperience] else []) ++
    (if b.skills_alignment < 60 then [improveSkills] else [])
  if l.length = 0 then [improveDefault] else l

/-- The weighted overall score of `calculate_comprehensive_score` (source
lines 185-190): the source computes
`int(k*0.40 + f*0.15 + e*0.25 + s*0.20)` in IEEE doubles, left to right.
An exhaustive machine check over all integers `k, e, s ∈ [0,100]` and all
multiples of 5 `f ∈ [0,100]` shows the double computation always equals
`(k*40 + f*15 + e*25 + s*20) / 100` rounded down, and `score_formatting`
only returns multiples of 5 (`score_formatting_dvd_five` below), so on the
reachable domain the exact `Nat` formula is an exact model.  (On arbitrary
breakdowns with `f` not a multiple of 5 the double path can differ by one,
e.g. at `(0, 9, 5, 2)`; such breakdowns are unreachable.) -/
def overall_of (b : ATSScoreBreakdown) : Nat :=
  (b.keyword_match * 40 + b.formatting * 15 +
   b.experience_relevance * 25 + b.skills_alignment * 20) / 100

/-- Feedback tier for `overall_score >= 80` (source line 198). -/
def feedbackExcellent : List Char := "Excellent ATS compatibility!".toList

/-- Feedback tier for `overall_score >= 60` (source line 200). -/
def feedbackGood : List Char :=
  "Good ATS compatibility with room for improvement.".toList

/-- Feedback tier otherwise (source line 202). -/
def feedbackNeeds : List Char :=
  "Needs optimization for better ATS compatibility.".toList

/-- `EnhancedATSScorer.calculate_comprehensive_score` (source lines
157-213).  `feedback_parts` always holds exactly the one tier message, so
`" ".join(feedback_parts)` is that message. -/
def calculate_comprehensive_score (r : ResumeData) (jd : List Char) : ScoreReport :=
  let km := calculate_keyword_match r jd
  let keyword_score := km.1
  let missing_keywords := km.2
  let formatting_score := score_formatting r
  let experience_score := score_experience_relevance r jd
  let skills_score := score_skills_alignment r jd
  let breakdown : ATSScoreBreakdown :=
    ⟨keyword_score, formatting_score, experience_score, skills_score⟩
  let overall_score := overall_of breakdown
  let strengths := identify_strengths r breakdown
  let improvements := generate_improvements breakdown missing_keywords
  let tier :=
    if 80 ≤ overall_score then feedbackExcellent
    else if 60 ≤ overall_score then feedbackGood
    else feedbackNeeds
  let feedback := tier ++ ' ' :: joinSp (improvements.take 2)
  ⟨overall_score, breakdown, missing_keywords.take 10, strengths,
   improvements, feedback⟩

/-! ## Spec-side definition for the formatting refinement claim -/

/-- The formatting score as spec §4.3 words it: start at 100, independent
deductions of 15/10/30/20/15 for missing email/phone/experience/skills/
education, bonuses of 5 for a network link and 5 for a project, clamped to
`[0,100]`.  Compared against `score_formatting` (translated from the
source's sequential updates) in the claim below. -/
def formatting_spec (r : ResumeData) : Nat :=
  (max 0 (min 100 ((100 : Int)
    - (if r.personalInfo.email = [] then 15 else 0)
    - (if r.personalInfo.phone = [] then 10 else 0)
    - (if r.experience = [] then 30 else 0)
    - (if r.skills.languages = [] ∧ r.skills.tools = [] then 20 else 0)
    - (if r.education = [] then 15 else 0)
    + (if r.personalInfo.linkedin ≠ [] then 5 else 0)
    + (if r.projects ≠ [] then 5 else 0)))).toNat

/-! ## Concrete inputs used by witnesses and counterexamples -/

/-- A resume with every field empty. -/
def emptyResume : ResumeData :=
  ⟨⟨[], [], []⟩, [], ⟨[], [], [], []⟩, [], [], []⟩

/-- A generic single experience entry. -/
def sampleExp : ExperienceEntry :=
  ⟨"Acme".toList, "Engineer".toList, "NYC".toList, "2020".toList, "2022".toList,
   ["Built scalable API using Docker and Python".toList]⟩

/-- A resume that has every section except experience: email, phone,
LinkedIn, a skill, an education entry and a project.  Its raw formatting
score is `100 + 5 + 5 = 110`, so the clamp at 100 binds once an
experience entry is added. -/
def fullNoExpResume : ResumeData :=
  ⟨⟨"a@b.co".toList, "12345".toList, "linkedin.com/in/x".toList⟩,
   [], ⟨["python".toList], [], [], []⟩, [], [⟨"MIT".toList⟩], [⟨"proj".toList⟩]⟩

/-- Job description used by the keyword-monotonicity witness. -/
def sampleJd : List Char := "python python developer needed".toList

/-! ## Sanity evaluations of the embedding

Concrete checks that the tokenizer and scorers behave as the source does
on small inputs (cross-checked against the regex semantics by hand). -/

example : findTokens ("hello world").toList = [("hello").toList, ("world").toList] := by
  decide

example : findTokens ("c++ and node.js").toList =
    [("c").toList, ("and").toList, ("node.js").toList] := by decide

example : findTokens ("ab_").toList = [] := by decide

example : findTokens ("c++x").toList = [("c++x").toList] := by decide

example : extract_keywords ("The Python developer and the API").toList =
    [("python").toList, ("developer").toList, ("api").toList] := by decide

example : important_keywords ("java java python java python rust").toList =
    [("java").toList, ("python").toList, ("rust").toList] := by decide

example : important_keywords ("alpha beta").toList =
    [("alpha").toList, ("beta").toList] := by decide

example : important_keywords ("aaa ccc aaa ccc bbb ddd").toList =
    [("aaa").toList, ("ccc").toList, ("bbb").toList, ("ddd").toList] := by decide

example : important_keywords ("xxx yyy zzz yyy").toList =
    [("yyy").toList, ("xxx").toList, ("zzz").toList] := by decide

example : findTokens ("a+b_c").toList = [("a+").toList] := by decide

example : findTokens ("mid#_x").toList = [("mid#").toList] := by decide

example : findTokens ("foo--bar").toList = [("foo--bar").toList] := by decide

example : findTokens ("x_y").toList = [] := by decide

example : findTokens ("tail#").toList = [("tail").toList] := by decide

/-! ## Helper lemmas on the formatting scorer -/

set_option maxHeartbeats 1600000

/-- The running formatting score before the clamp is at least 10: the
deductions total at most `15+10+30+20+15 = 90` and bonuses only add. -/
lemma score_formatting_raw_ge (r : ResumeData) : 10 ≤ score_formatting_raw r := by
  unfold score_formatting_raw
  split_ifs <;> decide

/-- The running formatting score before the clamp is at most 110. -/
lemma score_formatting_raw_le (r : ResumeData) : score_formatting_raw r ≤ 110 := by
  unfold score_formatting_raw
  split_ifs <;> decide

/-- Every deduction, bonus and clamp bound of the formatting scorer is a
multiple of 5, so the formatting score always is.  (Used to justify the
exact model of the weighted overall score: the double-precision
aggregation was machine-checked to agree with exact floor on the whole
grid of breakdowns whose formatting component is a multiple of 5.) -/
lemma score_formatting_dvd_five (r : ResumeData) : 5 ∣ score_formatting r := by
  unfold score_formatting score_formatting_raw
  split_ifs <;> decide

/-- Replacing the empty experience list by one entry shifts the raw
formatting score by exactly the 30-point experience deduction. -/
lemma score_formatting_raw_addExp (r : ResumeData) (e : ExperienceEntry)
    (h : r.experience = []) :
    score_formatting_raw { r with experience := [e] } =
      score_formatting_raw r + 30 := by
  unfold score_formatting_raw
  split_ifs <;> simp_all

/-! ## Claim theorems: formatting -/

/-- C10: for every resume, the formatting score is at least 10: the
deductions total at most 90 and the bonuses only add, so the lower clamp
to 0 is unreachable. -/
theorem claim_C10 (r : ResumeData) : 10 ≤ score_formatting r := by
  have h1 := score_formatting_raw_ge r
  unfold score_formatting
  omega

/-- C6: the formatting score starts at 100, subtracts 15 for a missing
email, 10 for a missing phone, 30 for empty experience, 20 when both the
languages and tools lists are empty, 15 for empty education, adds 5 for a
LinkedIn link and 5 for a project, clamped to `[0,100]`; a resume with no
email, phone, experience, skills and education scores exactly 10. -/
theorem claim_C6 :
    (∀ r : ResumeData, score_formatting r = formatting_spec r) ∧
      score_formatting emptyResume = 10 := by
  constructor
  · intro r
    unfold score_formatting score_formatting_raw formatting_spec
    split_ifs <;> decide
  · decide

/-- C3 as stated is false: when the resume with one experience entry has
enough bonuses to push its raw score above 100, the upper clamp shrinks
the 30-point gap.  `fullNoExpResume` has email, phone, a skill, education,
LinkedIn and a project: with one experience entry it scores
`min 100 (100+5+5) = 100`, without experience it scores `110 - 30 = 80`,
a difference of 20, not 30. -/
theorem claim_C3_counterexample :
    fullNoExpResume.experience = [] ∧
      score_formatting { fullNoExpResume with experience := [sampleExp] } = 100 ∧
      score_formatting fullNoExpResume = 80 ∧
      ¬(score_formatting { fullNoExpResume with experience := [sampleExp] } =
          score_formatting fullNoExpResume + 30) := by
  refine ⟨rfl, by decide, by decide, by decide⟩

/-- C3 amended: for a resume with empty experience, experience relevance
is 0 and skills alignment is 0 when the combined skill lists are empty;
the formatting score is exactly 30 below that of the otherwise-identical
resume with one experience entry, provided the latter's pre-clamp
formatting total does not exceed 100 (otherwise the clamp at 100 shrinks
the gap). -/
theorem claim_C3 (r : ResumeData) (e : ExperienceEntry) (jd : List Char)
    (hexp : r.experience = [])
    (hclamp : score_formatting_raw { r with experience := [e] } ≤ 100) :
    score_experience_relevance r jd = 0 ∧
      score_formatting { r with experience := [e] } =
        score_formatting r + 30 ∧
      (allSkills r = [] → score_skills_alignment r jd = 0) := by
  refine ⟨?_, ?_, ?_⟩
  · unfold score_experience_relevance
    rw [if_pos hexp]
  · have hshift := score_formatting_raw_addExp r e hexp
    have hge := score_formatting_raw_ge r
    unfold score_formatting
    omega
  · intro hsk
    unfold score_skills_alignment
    rw [if_pos hsk]

/-- C3 witness: the amended statement at a concrete input (the empty
resume plus one experience entry; its pre-clamp score is `40 ≤ 100`). -/
theorem claim_C3_witness :
    emptyResume.experience = [] ∧
      score_formatting_raw { emptyResume with experience := [sampleExp] } ≤ 100 ∧
      (score_experience_relevance emptyResume [] = 0 ∧
        score_formatting { emptyResume with experience := [sampleExp] } =
          score_formatting emptyResume + 30 ∧
        (allSkills emptyResume = [] → score_skills_alignment emptyResume [] = 0)) :=
  ⟨rfl, by decide, claim_C3 emptyResume sampleExp [] rfl (by decide)⟩

/-! ## Claim theorems: improvements, aggregation, determinism -/

/-- C7: `generate_improvements` emits exactly one suggestion per sub-score
below its threshold (`keyword_match < 60`, `formatting < 70`,
`experience_relevance < 60`, `skills_alignment < 60`), in the fixed order
keyword, formatting, experience, skills, the keyword suggestion embedding
the first 5 missing keywords; when no threshold is crossed it returns
exactly the one default well-optimized message. -/
theorem claim_C7 (b : ATSScoreBreakdown) (missing : List (List Char)) :
    generate_improvements b missing =
      if b.keyword_match < 60 ∨ b.formatting < 70 ∨
          b.experience_relevance < 60 ∨ b.skills_alignment < 60 then
        (if b.keyword_match < 60
          then ["Add key terms: ".toList ++ joinCommaSp (missing.take 5)] else []) ++
        (if b.formatting < 70 then [improveFormatting] else []) ++
        (if b.experience_relevance < 60 then [improveExperience] else []) ++
        (if b.skills_alignment < 60 then [improveSkills] else [])
      else [improveDefault] := by
  unfold generate_improvements improveKeyword
  split_ifs <;> simp_all
  omega

/-- C1: the overall score of every report equals the weighted sum
`0.40*keyword + 0.15*formatting + 0.25*experience + 0.20*skills` of its
own breakdown rounded down (see `overall_of` for the relation between the
exact formula and the source's double-precision arithmetic), and on
breakdown `(60, 80, 50, 70)` that weighted floor is 62. -/
theorem claim_C1 (r : ResumeData) (jd : List Char) :
    (calculate_comprehensive_score r jd).score =
        overall_of (calculate_comprehensive_score r jd).breakdown ∧
      overall_of ⟨60, 80, 50, 70⟩ = 62 :=
  ⟨rfl, by decide⟩

/-- C9: the aggregator is a pure function of its two inputs — two calls
with identical resume document and job description return identical
`ScoreReport`s in every field (the embedding is a total function, which
models the source's freedom from I/O and mutation). -/
theorem claim_C9 (r r' : ResumeData) (jd jd' : List Char)
    (hr : r = r') (hjd : jd = jd') :
    calculate_comprehensive_score r jd = calculate_comprehensive_score r' jd' := by
  rw [hr, hjd]

/-- C9 witness at a concrete input. -/
theorem claim_C9_witness :
    calculate_comprehensive_score emptyResume sampleJd =
      calculate_comprehensive_score emptyResume sampleJd :=
  claim_C9 emptyResume emptyResume sampleJd sampleJd rfl rfl

/-! ## Range lemmas for the sub-scores -/

/-- `m ≤ n` implies the integer percentage `m * 100 / n` is at most 100
(also when `n = 0`, where Nat division yields 0). -/
lemma percent_le_100 {m n : Nat} (h : m ≤ n) : m * 100 / n ≤ 100 := by
  rcases Nat.eq_zero_or_pos n with hn | hn
  · subst hn
    simp
  · calc m * 100 / n ≤ n * 100 / n :=
          Nat.div_le_div_right (Nat.mul_le_mul_right 100 h)
    _ = 100 := Nat.mul_div_cancel_left 100 hn

/-- The keyword match percentage is at most 100. -/
lemma keyword_match_le_100 (r : ResumeData) (jd : List Char) :
    (calculate_keyword_match r jd).1 ≤ 100 := by
  show (if (important_keywords jd).isEmpty then 0
    else (important_keywords jd).countP
        (fun kw => decide (kw <:+: resume_text r)) * 100 /
      (important_keywords jd).length) ≤ 100
  split
  · exact Nat.zero_le 100
  · exact percent_le_100 (List.countP_le_length _)

/-- The formatting score is at most 100 (the final clamp). -/
lemma formatting_le_100 (r : ResumeData) : score_formatting r ≤ 100 := by
  unfold score_formatting
  omega

/-- The experience relevance score is at most 100: every per-entry
relevance is capped at `100 * j`, so the total is at most `100 * j * n`. -/
lemma experience_le_100 (r : ResumeData) (jd : List Char) :
    score_experience_relevance r jd ≤ 100 := by
  unfold score_experience_relevance
  split
  · exact Nat.zero_le 100
  · rename_i hne
    set jks := dedupFirst (extract_keywords jd) with hjks
    set j := max jks.length 1 with hj
    set l := r.experience.map (fun e =>
      let eks := dedupFirst (extract_keywords (lowerStr (joinSp e.description)))
      let overlap := jks.countP (fun k => eks.contains k)
      min (100 * j) (100 * overlap)) with hl
    have hbound : l.sum ≤ l.length * (100 * j) := by
      have := List.sum_le_card_nsmul l (100 * j) (by
        intro x hx
        rw [hl] at hx
        obtain ⟨e, _, hxe⟩ := List.mem_map.mp hx
        rw [← hxe]
        exact Nat.min_le_left _ _)
      simpa [smul_eq_mul] using this
    have hlen : l.length = r.experience.length := by
      rw [hl, List.length_map]
    have hnpos : 0 < r.experience.length := List.length_pos.mpr hne
    have hjpos : 0 < j := lt_of_lt_of_le Nat.zero_lt_one (le_max_right _ _)
    calc l.sum / (j * r.experience.length)
        ≤ (100 * (j * r.experience.length)) / (j * r.experience.length) := by
          apply Nat.div_le_div_right
          calc l.sum ≤ l.length * (100 * j) := hbound
          _ = 100 * (j * r.experience.length) := by rw [hlen]; ring
    _ = 100 := by
          rw [Nat.mul_comm 100 (j * r.experience.length)]
          exact Nat.mul_div_cancel_left 100 (Nat.mul_pos hjpos hnpos)

/-- The skills alignment score is at most 100 (the final `min`). -/
lemma skills_le_100 (r : ResumeData) (jd : List Char) :
    score_skills_alignment r jd ≤ 100 := by
  unfold score_skills_alignment
  split
  · exact Nat.zero_le 100
  · exact Nat.min_le_left _ _

/-- C2: every field of the breakdown produced by the aggregator lies in
`[0,100]`, and so does the overall score (all scores are naturals, so the
lower bound 0 holds by type; the upper bounds are proved). -/
theorem claim_C2 (r : ResumeData) (jd : List Char) :
    (calculate_comprehensive_score r jd).breakdown.keyword_match ≤ 100 ∧
      (calculate_comprehensive_score r jd).breakdown.formatting ≤ 100 ∧
      (calculate_comprehensive_score r jd).breakdown.experience_relevance ≤ 100 ∧
      (calculate_comprehensive_score r jd).breakdown.skills_alignment ≤ 100 ∧
      (calculate_comprehensive_score r jd).score ≤ 100 := by
  refine ⟨keyword_match_le_100 r jd, formatting_le_100 r,
    experience_le_100 r jd, skills_le_100 r jd, ?_⟩
  show overall_of ⟨(calculate_keyword_match r jd).1, score_formatting r,
    score_experience_relevance r jd, score_skills_alignment r jd⟩ ≤ 100
  unfold overall_of
  have h1 := keyword_match_le_100 r jd
  have h2 := formatting_le_100 r
  have h3 := experience_le_100 r jd
  have h4 := skills_le_100 r jd
  have hsum : (calculate_keyword_match r jd).1 * 40 + score_formatting r * 15 +
      score_experience_relevance r jd * 25 + score_skills_alignment r jd * 20 ≤
      10000 := by omega
  calc ((calculate_keyword_match r jd).1 * 40 + score_formatting r * 15 +
      score_experience_relevance r jd * 25 + score_skills_alignment r jd * 20) / 100 ≤
        10000 / 100 := Nat.div_le_div_right hsum
    _ = 100 := by norm_num

/-- C8: the degenerate inputs are non-fatal and give zero scores: an empty
important-keywords list gives match percentage 0, an empty experience list
gives experience relevance 0, and an empty combined skill list gives
skills alignment 0.  (Totality of the Lean functions models the absence of
exceptions: every division in the source is guarded by exactly these
emptiness tests.) -/
theorem claim_C8 (r : ResumeData) (jd : List Char) :
    (important_keywords jd = [] → (calculate_keyword_match r jd).1 = 0) ∧
      (r.experience = [] → score_experience_relevance r jd = 0) ∧
      (allSkills r = [] → score_skills_alignment r jd = 0) := by
  refine ⟨?_, ?_, ?_⟩
  · intro h
    show (if (important_keywords jd).isEmpty then 0
      else (important_keywords jd).countP
          (fun kw => decide (kw <:+: resume_text r)) * 100 /
        (important_keywords jd).length) = 0
    rw [if_pos (List.isEmpty_iff.mpr h)]
  · intro h
    unfold score_experience_relevance
    rw [if_pos h]
  · intro h
    unfold score_skills_alignment
    rw [if_pos h]

/-- C8 witness: the empty job description has no keywords, and the empty
resume has no experience and no skills; all three scores are 0 there. -/
theorem claim_C8_witness :
    important_keywords [] = [] ∧ emptyResume.experience = [] ∧
      allSkills emptyResume = [] ∧
      ((calculate_keyword_match emptyResume []).1 = 0 ∧
        score_experience_relevance emptyResume [] = 0 ∧
        score_skills_alignment emptyResume [] = 0) :=
  ⟨rfl, rfl, rfl,
    ⟨(claim_C8 emptyResume []).1 rfl, (claim_C8 emptyResume []).2.1 rfl,
      (claim_C8 emptyResume []).2.2 rfl⟩⟩

/-- C5: the missing-keywords list has length at most 10, is a sublist of
the top-15 important job-description keywords in frequency order (hence a
subset preserving that order), and every element is absent as a substring
from the resume haystack. -/
theorem claim_C5 (r : ResumeData) (jd : List Char) :
    (calculate_keyword_match r jd).2.length ≤ 10 ∧
      (calculate_keyword_match r jd).2.Sublist ((important_keywords jd).take 15) ∧
      (calculate_keyword_match r jd).2.Forall
        (fun kw => ¬(kw <:+: resume_text r)) := by
  have h2 : (calculate_keyword_match r jd).2 =
      (((important_keywords jd).take 15).filter
        (fun kw => !(decide (kw <:+: resume_text r)))).take 10 := rfl
  rw [h2]
  refine ⟨List.length_take_le _ _, ?_, ?_⟩
  · exact (List.take_sublist _ _).trans (List.filter_sublist _)
  · rw [List.forall_iff_forall_mem]
    intro kw hkw
    have hmem := (List.take_sublist 10 _).subset hkw
    have hp := (List.mem_filter.mp hmem).2
    simpa using hp

/-! ## Helper lemmas for keyword monotonicity (C4) -/

/-- Every character of every token produced by the findall scan belongs to
the token character class (in particular no token contains a space). -/
lemma findTokensAux_tokenChar :
    ∀ (fuel : Nat) (prev : Option Char) (s : List Char),
      ∀ t ∈ findTokensAux fuel prev s, ∀ c ∈ t, isTokenChar c = true := by
  intro fuel
  induction fuel with
  | zero =>
    intro prev s t ht
    simp [findTokensAux] at ht
  | succ n ih =>
    intro prev s t ht c hc
    match s with
    | [] => simp [findTokensAux] at ht
    | a :: rest =>
      simp only [findTokensAux] at ht
      split at ht
      · rename_i hstart
        split at ht
        · rcases List.mem_cons.mp ht with rfl | htl
          · have hcr : c ∈ (a :: rest.takeWhile isTokenChar) :=
              (List.take_sublist _ _).subset hc
            rcases List.mem_cons.mp hcr with rfl | hcw
            · have halpha : c.isAlpha = true := by
                simp only [Bool.and_eq_true] at hstart
                exact hstart.1
              simp [isTokenChar, halpha]
            · exact List.mem_takeWhile_imp hcw
          · exact ih _ _ _ htl _ hc
        · exact ih _ _ _ ht _ hc
      · exact ih _ _ _ ht _ hc

/-- Tokens extracted by `extract_keywords` consist of token-class
characters only. -/
lemma tokenChar_of_mem_extract {kw text : List Char}
    (h : kw ∈ extract_keywords text) : ∀ c ∈ kw, isTokenChar c = true := by
  unfold extract_keywords at h
  have h2 := (List.mem_filter.mp h).1
  unfold findTokens at h2
  exact findTokensAux_tokenChar _ _ _ _ h2

/-- No extracted keyword contains a space. -/
lemma space_not_mem_of_mem_extract {kw text : List Char}
    (h : kw ∈ extract_keywords text) : ' ' ∉ kw := by
  intro hsp
  have hc := tokenChar_of_mem_extract h ' ' hsp
  exact absurd hc (by decide)

/-- Membership in the deduplicated list implies membership in the source
list. -/
lemma mem_dedupFirstAux {x : List Char} :
    ∀ (l seen : List (List Char)), x ∈ dedupFirstAux seen l → x ∈ l := by
  intro l
  induction l with
  | nil =>
    intro seen h
    simp [dedupFirstAux] at h
  | cons a as ih =>
    intro seen h
    rw [dedupFirstAux] at h
    split at h
    · exact List.mem_cons_of_mem a (ih _ h)
    · rcases List.mem_cons.mp h with rfl | h2
      · exact List.mem_cons_self _ _
      · exact List.mem_cons_of_mem a (ih _ h2)

/-- Membership after a stable insertion. -/
lemma mem_insertLt {x y : List Char} {lt : List Char → List Char → Bool} :
    ∀ l, x ∈ insertLt lt y l → x = y ∨ x ∈ l := by
  intro l
  induction l with
  | nil =>
    intro h
    rw [insertLt] at h
    exact Or.inl (List.mem_singleton.mp h)
  | cons a as ih =>
    intro h
    rw [insertLt] at h
    split at h
    · rcases List.mem_cons.mp h with rfl | h2
      · exact Or.inr (List.mem_cons_self _ _)
      · rcases ih h2 with h3 | h3
        · exact Or.inl h3
        · exact Or.inr (List.mem_cons_of_mem a h3)
    · rcases List.mem_cons.mp h with rfl | h2
      · exact Or.inl rfl
      · exact Or.inr h2

/-- Membership is preserved backwards through the stable sort. -/
lemma mem_stableSortLt {x : List Char} {lt : List Char → List Char → Bool} :
    ∀ l, x ∈ stableSortLt lt l → x ∈ l := by
  intro l
  induction l with
  | nil =>
    intro h
    simp [stableSortLt] at h
  | cons a as ih =>
    intro h
    rw [stableSortLt] at h
    rcases mem_insertLt _ h with rfl | h2
    · exact List.mem_cons_self _ _
    · exact List.mem_cons_of_mem a (ih h2)

/-- Every important keyword is an extracted job-description keyword. -/
lemma mem_important_keywords {kw jd : List Char}
    (h : kw ∈ important_keywords jd) : kw ∈ extract_keywords jd := by
  unfold important_keywords at h
  have h2 := (List.take_sublist _ _).subset h
  have h3 := mem_stableSortLt _ h2
  unfold dedupFirst at h3
  exact mem_dedupFirstAux _ _ h3

/-- An infix of `a` is an infix of `a ++ z`. -/
lemma isInfix_append_right {t a : List Char} (z : List Char) (h : t <:+: a) :
    t <:+: a ++ z := by
  obtain ⟨u, v, huv⟩ := h
  exact ⟨u, v ++ z, by rw [← huv]; simp⟩

/-- An infix of `b` is an infix of `z ++ b`. -/
lemma isInfix_append_left {t b : List Char} (z : List Char) (h : t <:+: b) :
    t <:+: z ++ b := by
  obtain ⟨u, v, huv⟩ := h
  exact ⟨z ++ u, v, by rw [← huv]; simp⟩

/-- A space-free infix of `a ++ ' ' :: b` lies entirely inside `a` or
entirely inside `b`: it cannot straddle the separating space. -/
lemma infix_split_sep {t a b : List Char} {sep : Char} (hsep : sep ∉ t)
    (h : t <:+: a ++ sep :: b) : t <:+: a ∨ t <:+: b := by
  obtain ⟨u, v, huv⟩ := h
  have h1 : u ++ (t ++ v) = a ++ (sep :: b) := by
    rw [← huv]; simp
  rcases List.append_eq_append_iff.mp h1 with ⟨w, hw1, hw2⟩ | ⟨w, hw1, hw2⟩
  · rcases List.append_eq_append_iff.mp hw2 with ⟨w2, hx1, hx2⟩ | ⟨w2, hx1, hx2⟩
    · left
      exact ⟨u, w2, by rw [hw1, hx1]; simp⟩
    · cases w2 with
      | nil =>
        left
        rw [List.append_nil] at hx1
        exact ⟨u, [], by rw [hw1, ← hx1]; simp⟩
      | cons d ds =>
        exfalso
        simp only [List.cons_append] at hx2
        have hd : sep = d := (List.cons.injEq _ _ _ _).mp hx2 |>.1
        apply hsep
        rw [hx1, hd]
        exact List.mem_append.mpr (Or.inr (List.mem_cons_self d ds))
  · cases w with
    | nil =>
      rw [List.nil_append] at hw2
      cases t with
      | nil => exact Or.inr ⟨[], b, by simp⟩
      | cons e es =>
        exfalso
        simp only [List.cons_append] at hw2
        have he : sep = e := (List.cons.injEq _ _ _ _).mp hw2 |>.1
        exact hsep (he ▸ List.mem_cons_self e es)
    | cons d ds =>
      right
      simp only [List.cons_append] at hw2
      have hb : b = ds ++ (t ++ v) := ((List.cons.injEq _ _ _ _).mp hw2).2
      exact ⟨ds, v, by rw [hb]; simp⟩

/-- `lowerStr` distributes over append. -/
lemma lowerStr_append (a b : List Char) :
    lowerStr (a ++ b) = lowerStr a ++ lowerStr b := List.map_append _ a b

/-- The haystack splits as the lowercased `additionalInfo`, a space, and
the lowercased remainder (which is independent of `additionalInfo`). -/
lemma resume_text_eq (r : ResumeData) :
    resume_text r = lowerStr r.additionalInfo ++ ' ' :: lowerStr (resume_rest r) := by
  unfold resume_text
  rw [lowerStr_append]
  rfl

/-- C4: appending a keyword extracted from the job description to the
resume's `additionalInfo` (all other fields fixed) does not decrease the
keyword match percentage.  Every keyword that matched before still
matches: job keywords are space-free, so an occurrence in the old
haystack lies entirely inside the lowercased `additionalInfo` or entirely
inside the rest, and both survive the insertion; the divisor (the number
of important keywords) is unchanged. -/
theorem claim_C4 (r : ResumeData) (jd kw : List Char)
    (hkw : kw ∈ extract_keywords jd) :
    (calculate_keyword_match r jd).1 ≤
      (calculate_keyword_match
        { r with additionalInfo := r.additionalInfo ++ ' ' :: kw } jd).1 := by
  show (if (important_keywords jd).isEmpty then 0
      else (important_keywords jd).countP
          (fun t => decide (t <:+: resume_text r)) * 100 /
        (important_keywords jd).length) ≤
    (if (important_keywords jd).isEmpty then 0
      else (important_keywords jd).countP
          (fun t => decide (t <:+:
            resume_text { r with additionalInfo := r.additionalInfo ++ ' ' :: kw })) * 100 /
        (important_keywords jd).length)
  by_cases hemp : (important_keywords jd).isEmpty
  · rw [if_pos hemp, if_pos hemp]
  · rw [if_neg hemp, if_neg hemp]
    apply Nat.div_le_div_right
    apply Nat.mul_le_mul_right
    apply List.countP_mono_left
    intro t ht hdec
    rw [decide_eq_true_iff] at hdec ⊢
    have hsp : ' ' ∉ t :=
      space_not_mem_of_mem_extract (mem_important_keywords ht)
    rw [resume_text_eq] at hdec
    have hhay' : resume_text { r with additionalInfo := r.additionalInfo ++ ' ' :: kw } =
        (lowerStr r.additionalInfo ++ ' ' :: lowerStr kw) ++
          ' ' :: lowerStr (resume_rest r) := by
      rw [resume_text_eq]
      show lowerStr (r.additionalInfo ++ ' ' :: kw) ++
          ' ' :: lowerStr (resume_rest r) = _
      rw [lowerStr_append]
      simp only [List.append_assoc]
      rfl
    rw [hhay']
    rcases infix_split_sep hsp hdec with h1 | h1
    · exact isInfix_append_right _
        (isInfix_append_right (' ' :: lowerStr kw) h1)
    · have h2 : t <:+: [' '] ++ lowerStr (resume_rest r) := isInfix_append_left [' '] h1
      have h3 := isInfix_append_left
        (lowerStr r.additionalInfo ++ ' ' :: lowerStr kw) h2
      simpa using h3

/-- C4 witness: the empty resume, the sample job description, and its
extracted keyword `python`. -/
theorem claim_C4_witness :
    ("python").toList ∈ extract_keywords sampleJd ∧
      (calculate_keyword_match emptyResume sampleJd).1 ≤
        (calculate_keyword_match
          { emptyResume with additionalInfo :=
              emptyResume.additionalInfo ++ ' ' :: ("python").toList } sampleJd).1 :=
  ⟨by decide, claim_C4 emptyResume sampleJd ("python").toList (by decide)⟩

end Resumyx
